import Mathlib

set_option maxHeartbeats 1000000

/-!
Verification model of the per-CPU slab-cached kernel heap of moss-kernel:
`libkernel/src/memory/allocators/slab/cache.rs` (the `PtrCache` magazine and
`SlabCache` bundle) and `src/arch/arm64/memory/heap.rs` (the `KHeap` global
allocator facade and its huge path).  Machine pointers and addresses are
modelled as natural numbers; the magazine's backing array as a `List Nat`
of fixed length `PTRS_PER_SZ_CLASS`.
-/

/-- Constant `PAGE_SIZE`.  Modelled from the spec: `PAGE_SIZE` is defined in
`libkernel::memory`, which is not among the included sources; the spec fixes
it as the platform constant, typically 4096. -/
def PAGE_SIZE : Nat := 4096

/-- Constant `PAGE_OFFSET` from `src/arch/arm64/memory/mod.rs`: base of the
kernel linear map; the `PageOffsetTranslator` address translation is modelled
as adding or subtracting this offset (a fixed linear offset per the spec). -/
def PAGE_OFFSET : Nat := 0xffff000000000000

/-- Constant `PTRS_PER_SZ_CLASS` from `slab/cache.rs`: magazine capacity. -/
def PTRS_PER_SZ_CLASS : Nat := 32

/-- Structure `PtrCache` from `slab/cache.rs`: a fixed-capacity LIFO stack of
object pointers.  `ptrs` models the array `[*mut u8; PTRS_PER_SZ_CLASS]` and
`next_free` the stack count. -/
structure PtrCache where
  next_free : Nat
  ptrs : List Nat
deriving DecidableEq

/-- Rust `PtrCache::new`: empty magazine, array filled with null pointers. -/
def PtrCache.new : PtrCache :=
  ⟨0, List.replicate PTRS_PER_SZ_CLASS 0⟩

/-- Rust `PtrCache::is_empty`. -/
def PtrCache.is_empty (c : PtrCache) : Bool :=
  c.next_free == 0

/-- Rust `PtrCache::is_full`. -/
def PtrCache.is_full (c : PtrCache) : Bool :=
  c.next_free == PTRS_PER_SZ_CLASS

/-- Rust `PtrCache::alloc`: pop the top of the stack, `none` when empty. -/
def PtrCache.alloc (c : PtrCache) : Option Nat × PtrCache :=
  if c.is_empty then (none, c)
  else
    let nf := c.next_free - 1
    (some (c.ptrs.getD nf 0), { c with next_free := nf })

/-- Rust `PtrCache::free`: push `p`, or `Err(p)` when the magazine is full. -/
def PtrCache.free (c : PtrCache) (p : Nat) : Except Nat Unit × PtrCache :=
  if c.is_full then (Except.error p, c)
  else
    (Except.ok (),
     { c with next_free := c.next_free + 1, ptrs := c.ptrs.set c.next_free p })

/-- Function `SlabManager::try_alloc`.  Modelled from the spec: the size-class
slab allocator (`slab/allocator.rs`) is not among the included sources; per the
spec it pops the head of the class free list and returns `None` when the list
is empty, never growing the slab.  The free list is modelled as the list of
free object pointers, head first. -/
def slab_try_alloc (slab : List Nat) : Option Nat × List Nat :=
  match slab with
  | [] => (none, [])
  | p :: rest => (some p, rest)

/-- Function `SlabManager::free`.  Modelled from the spec: push the pointer
onto the head of the class free list. -/
def slab_free (slab : List Nat) (p : Nat) : List Nat :=
  p :: slab

/-- Rust `PtrCache::fill_from` from `slab/cache.rs`: while the magazine is not
full and the slab's `try_alloc` yields a pointer, store it at `next_free` and
increment the count.  Returns the final magazine and remaining free list. -/
def PtrCache.fill_from : PtrCache → List Nat → PtrCache × List Nat
  | c, [] => (c, [])
  | c, p :: rest =>
      if c.is_full then (c, p :: rest)
      else PtrCache.fill_from ⟨c.next_free + 1, c.ptrs.set c.next_free p⟩ rest

/-- Loop body of Rust `PtrCache::drain_into` from `slab/cache.rs`, iterated
`i` times: decrement `next_free` and free `ptrs[next_free]` into the slab. -/
def drain_loop : Nat → PtrCache → List Nat → PtrCache × List Nat
  | 0, c, slab => (c, slab)
  | i + 1, c, slab =>
      let nf := c.next_free - 1
      drain_loop i { c with next_free := nf } (slab_free slab (c.ptrs.getD nf 0))

/-- Rust `PtrCache::drain_into`: free `next_free >> 1` cached pointers into
the slab free list, taking the top of the stack first. -/
def PtrCache.drain_into (c : PtrCache) (slab : List Nat) : PtrCache × List Nat :=
  drain_loop (c.next_free >>> 1) c slab

/-- Magazine well-formedness: the count is within capacity and the backing
array has exactly the fixed capacity (true by construction in the source). -/
def PtrCache.wf (c : PtrCache) : Prop :=
  c.next_free ≤ PTRS_PER_SZ_CLASS ∧ c.ptrs.length = PTRS_PER_SZ_CLASS

instance (c : PtrCache) : Decidable c.wf := by
  unfold PtrCache.wf; infer_instance

example : (PtrCache.new.free 7).2.next_free = 1 := by decide

example : ((PtrCache.new.free 7).2.alloc).1 = some 7 := by decide

example : (PtrCache.drain_into ⟨4, [10, 11, 12, 13]⟩ [9]).2 = [12, 13, 9] := by decide

example : (PtrCache.drain_into ⟨4, [10, 11, 12, 13]⟩ [9]).1.next_free = 2 := by decide

example : (PtrCache.fill_from PtrCache.new [5, 6]).1.next_free = 2 := by decide

example : (PtrCache.fill_from PtrCache.new [5, 6]).2 = [] := by decide

/-- Rust `usize::div_ceil` (positive divisor): division rounding up. -/
def div_ceil (a b : Nat) : Nat :=
  (a + b - 1) / b

/-- Fuel-driven search for the ceiling log₂: the smallest exponent `e`
(counting up from the given one, with `p = 2^e`) such that `target ≤ 2^e`.
Structural recursion on the fuel keeps it kernel-computable. -/
def clog2_go : Nat → Nat → Nat → Nat → Nat
  | 0, _, _, e => e
  | fuel + 1, target, p, e =>
      if target ≤ p then e else clog2_go fuel target (p * 2) (e + 1)

/-- Ceiling log₂ (`ceil_log2` of the spec): smallest `e` with `n ≤ 2^e`. -/
def clog2 (n : Nat) : Nat :=
  clog2_go n n 1 0

/-- Fuel-driven floor log₂, modelling Rust `usize::ilog2`: the number of
times the argument can be halved before dropping below 2. -/
def ilog2_go : Nat → Nat → Nat → Nat
  | 0, _, acc => acc
  | fuel + 1, n, acc => if 2 ≤ n then ilog2_go fuel (n / 2) (acc + 1) else acc

/-- Rust `usize::ilog2`: floor of log₂ (0 for inputs below 2). -/
def ilog2 (n : Nat) : Nat :=
  ilog2_go n n 0

/-- Rust `usize::next_power_of_two`, modelled by its documented semantics:
the smallest power of two greater than or equal to `n` (1 when `n` is 0). -/
def next_power_of_two (n : Nat) : Nat :=
  2 ^ clog2 n

/-- Helper: `clog2_go` computes `Nat.clog 2` of the target once the invariant
links `p` to `2^e` and every exponent below `e` is already too small. -/
theorem clog2_go_eq (fuel : Nat) :
    ∀ target e, target ≤ 2 ^ (e + fuel) → (∀ j, j < e → 2 ^ j < target) →
      clog2_go fuel target (2 ^ e) e = Nat.clog 2 target := by
  induction fuel with
  | zero =>
    intro target e hle hlt
    have h1 : Nat.clog 2 target ≤ e := by
      rw [← Nat.le_pow_iff_clog_le (by norm_num)]
      simpa using hle
    have h2 : e ≤ Nat.clog 2 target := by
      cases e with
      | zero => exact Nat.zero_le _
      | succ e =>
        have := (Nat.pow_lt_iff_lt_clog (b := 2) (by norm_num)).mp (hlt e (by omega))
        omega
    simp [clog2_go]
    omega
  | succ fuel ih =>
    intro target e hle hlt
    rw [clog2_go]
    by_cases hc : target ≤ 2 ^ e
    · have h1 : Nat.clog 2 target ≤ e := by
        rw [← Nat.le_pow_iff_clog_le (by norm_num)]
        exact hc
      have h2 : e ≤ Nat.clog 2 target := by
        cases e with
        | zero => exact Nat.zero_le _
        | succ e =>
          have := (Nat.pow_lt_iff_lt_clog (b := 2) (by norm_num)).mp (hlt e (by omega))
          omega
      simp [hc]
      omega
    · simp [hc]
      have hpow : 2 ^ e * 2 = 2 ^ (e + 1) := by ring
      rw [hpow]
      apply ih target (e + 1)
      · have : e + 1 + fuel = e + (fuel + 1) := by omega
        rw [this]
        exact hle
      · intro j hj
        rcases Nat.lt_succ_iff_lt_or_eq.mp hj with h | h
        · exact hlt j h
        · subst h
          omega

/-- Bridge: the executable `clog2` agrees with Mathlib's `Nat.clog 2`. -/
theorem clog2_eq_clog (n : Nat) : clog2 n = Nat.clog 2 n := by
  have h := clog2_go_eq n n 0 (by simpa using Nat.le_of_lt (Nat.lt_two_pow n))
    (by omega)
  simpa [clog2] using h

/-- Helper: `ilog2_go` on a power of two adds the exponent to the
accumulator, given enough fuel. -/
theorem ilog2_go_pow (fuel : Nat) :
    ∀ k acc, k ≤ fuel → ilog2_go fuel (2 ^ k) acc = acc + k := by
  induction fuel with
  | zero =>
    intro k acc hk
    interval_cases k
    simp [ilog2_go]
  | succ fuel ih =>
    intro k acc hk
    cases k with
    | zero => simp [ilog2_go]
    | succ k =>
      have h2 : 2 ≤ 2 ^ (k + 1) := by
        calc 2 = 2 ^ 1 := by norm_num
        _ ≤ 2 ^ (k + 1) := Nat.pow_le_pow_right (by norm_num) (by omega)
      have hdiv : 2 ^ (k + 1) / 2 = 2 ^ k := by
        rw [Nat.pow_succ]
        exact Nat.mul_div_cancel _ (by norm_num)
      rw [ilog2_go, if_pos h2, hdiv, ih k (acc + 1) (by omega)]
      omega

/-- Bridge: `ilog2` recovers the exponent of a power of two. -/
theorem ilog2_two_pow (k : Nat) : ilog2 (2 ^ k) = k := by
  have hk : k ≤ 2 ^ k := Nat.le_of_lt (Nat.lt_two_pow k)
  have h := ilog2_go_pow (2 ^ k) k 0 hk
  simpa [ilog2] using h

/-- Rust `KHeap::calculate_huge_order` from `heap.rs`: cover the request
size (rounded up to pages) with a buddy order. -/
def calculate_huge_order (size align : Nat) : Nat :=
  let sz := max size align
  let pages_needed := div_ceil sz PAGE_SIZE
  ilog2 (next_power_of_two pages_needed)

/-- Function `alloc_order`, the size classifier.  Modelled from the spec:
`alloc_order` lives in `slab/mod.rs`, which is not among the included sources;
per the spec, with `n = max(size, align)` (0 treated as 1), the class is
`k = ceil_log2(n) - MIN_SHIFT` (saturating at 0), and the result is `None`
when `k > K` (the huge path).  `min_shift` and `kmax` are the spec parameters
`MIN_SHIFT` and `K = MAX_SHIFT - MIN_SHIFT`. -/
def alloc_order (min_shift kmax size align : Nat) : Option Nat :=
  let n := max size align
  let n := if n = 0 then 1 else n
  let k := clog2 n - min_shift
  if k ≤ kmax then some k else none

/-- Helper: full characterisation of the drain loop.  Iterating the body `i`
times (with `i` within the current count and the count within the array)
lowers the count by `i` and conses the top `i` stack entries onto the slab
free list, so that the entry popped last (`ptrs[next_free - i]`) ends up at
the head. -/
theorem drain_loop_spec (i : Nat) :
    ∀ (c : PtrCache) (slab : List Nat),
      i ≤ c.next_free → c.next_free ≤ c.ptrs.length →
      drain_loop i c slab =
        ({ c with next_free := c.next_free - i },
         ((c.ptrs.drop (c.next_free - i)).take i) ++ slab) := by
  induction i with
  | zero =>
    intro c slab _ _
    simp [drain_loop]
  | succ i ih =>
    intro c slab hle hlen
    rw [drain_loop]
    rw [ih { c with next_free := c.next_free - 1 }
          (slab_free slab (c.ptrs.getD (c.next_free - 1) 0)) (by simp; omega) (by simp; omega)]
    have hidx : c.next_free - 1 - i = c.next_free - (i + 1) := by omega
    have hlt : c.next_free - 1 < c.ptrs.length := by omega
    have hsum : c.next_free - (i + 1) + i = c.next_free - 1 := by omega
    have hget : c.ptrs[c.next_free - 1]? = some (c.ptrs.getD (c.next_free - 1) 0) := by
      rw [List.getD_eq_getElem?_getD, List.getElem?_eq_getElem hlt]
      simp
    have htake : (c.ptrs.drop (c.next_free - (i + 1))).take (i + 1) =
        (c.ptrs.drop (c.next_free - (i + 1))).take i ++ [c.ptrs.getD (c.next_free - 1) 0] := by
      rw [List.take_succ, List.getElem?_drop, hsum, hget]
      simp
    simp only [hidx, slab_free, htake]
    simp

/-- Helper: `fill_from` preserves the magazine invariant (count within
capacity, array length fixed) and does not touch the array length. -/
theorem fill_from_wf :
    ∀ (slab : List Nat) (c : PtrCache), c.wf → (PtrCache.fill_from c slab).1.wf := by
  intro slab
  induction slab with
  | nil =>
    intro c hwf
    simpa [PtrCache.fill_from] using hwf
  | cons p rest ih =>
    intro c hwf
    rw [PtrCache.fill_from]
    by_cases hf : c.is_full
    · simpa [hf] using hwf
    · have hne : c.next_free ≠ PTRS_PER_SZ_CLASS := by
        simpa [PtrCache.is_full] using hf
      have hwf2 : PtrCache.wf ⟨c.next_free + 1, c.ptrs.set c.next_free p⟩ := by
        obtain ⟨h1, h2⟩ := hwf
        refine ⟨?_, ?_⟩
        · show c.next_free + 1 ≤ PTRS_PER_SZ_CLASS
          omega
        · show (c.ptrs.set c.next_free p).length = PTRS_PER_SZ_CLASS
          simpa using h2
      simpa [hf] using ih _ hwf2

example : alloc_order 3 9 64 64 = some 3 := by decide

example : alloc_order 3 9 (5 * PAGE_SIZE) PAGE_SIZE = none := by decide

example : calculate_huge_order (5 * PAGE_SIZE) PAGE_SIZE = 3 := by decide

/-- Events emitted by one `alloc`/`dealloc` call, used to state the temporal
claims about interrupt discipline.  `readBanked` is the `TPIDR_EL1` read in
`PerCpuCache::get`; `irqDisable`/`irqRestore` are `disable_interrupts` and
`restore_interrupt_state` (the restore carries the IRQ-enable state written
back); `magOp k` is any read or mutation of the class-`k` magazine;
`slabLockIrq`/`slabUnlockIrq` model `lock_save_irq` acquisition and release
of the class-`k` slab lock (the release carries the IRQ state it restores);
`frameAlloc` is a frame-allocator request; `freeRegion` is
`alloc_from_region` on the huge-path dealloc; `fatal` is a kernel panic. -/
inductive Event where
  | readBanked
  | fatal
  | irqDisable
  | irqRestore (enabled : Bool)
  | magOp (k : Nat)
  | slabLockIrq (k : Nat)
  | slabUnlockIrq (k : Nat) (restored : Bool)
  | frameAlloc (order : Nat)
  | freeRegion (start len : Nat)
deriving DecidableEq

/-- Result of one global-allocator call: a returned pointer, the unit return
of `dealloc`, or a kernel panic. -/
inductive Outcome where
  | ptr (p : Nat)
  | unit
  | fatal
deriving DecidableEq

/-- Per-CPU `SlabCache` (the magazine bundle) from `slab/cache.rs`: an array
of magazines indexed by size class, modelled as a total function. -/
def SlabCacheM : Type := Nat → PtrCache

/-- State visible to one `alloc`/`dealloc` call. -/
structure HeapEnv where
  /-- Value of `TPIDR_EL1`: this CPU's `SlabCache` bundle, `none` for null. -/
  banked : Option SlabCacheM
  /-- Current local IRQ-enable state, saved by `disable_interrupts`. -/
  irqOn : Bool
  /-- Whether the global `SLAB_ALLOC` once-lock has been initialised. -/
  slabInit : Bool
  /-- Per-class slab free lists (`SlabManager`), modelled from the spec. -/
  slabs : Nat → List Nat
  /-- Frame allocator for the huge path: order to start address, `none` is
      an allocation failure. -/
  framesHuge : Nat → Option Nat
  /-- Fresh order-0 slab page for a class, already carved into its object
      pointers; `none` is a frame-allocation failure.  Modelled from the
      spec's slab-growth description. -/
  freshObjs : Nat → Option (List Nat)

/-- Function `SlabManager::alloc`.  Modelled from the spec: the slab
allocator is not among the included sources; per the spec it pops the head
of the free list, and when the list is empty it acquires a fresh order-0
page from the frame allocator, carves and threads all its slots, then pops;
a frame-allocation failure is a fatal error (`none` outcome).  The returned
flag records whether a fresh page was taken. -/
def slab_alloc_grow (slab : List Nat) (fresh : Option (List Nat)) :
    (Option (Nat × List Nat)) × Bool :=
  match slab with
  | p :: rest => (some (p, rest), false)
  | [] =>
    match fresh with
    | some (p :: rest) => (some (p, rest), true)
    | some [] => (none, true)
    | none => (none, true)

/-- Rust `KHeap::alloc` from `heap.rs`, as a function from the per-call state
and the layout to the outcome, the successor state, and the event trace.
`PerCpuCache::get` reads the banked pointer (panicking on null) and disables
interrupts, saving the prior state; the classifier picks a magazine or the
huge path; dropping the `PerCpuCache` restores the saved IRQ state. -/
def KHeap.alloc (min_shift kmax : Nat) (env : HeapEnv) (size align : Nat) :
    Outcome × HeapEnv × List Event :=
  match env.banked with
  | none => (.fatal, env, [.readBanked, .fatal])
  | some cache =>
    let saved := env.irqOn
    let env1 : HeapEnv := { env with irqOn := false }
    match alloc_order min_shift kmax size align with
    | none =>
      let order := calculate_huge_order size align
      match env1.framesHuge order with
      | none =>
          (.fatal, env1, [.readBanked, .irqDisable, .frameAlloc order, .fatal])
      | some pa =>
          (.ptr (pa + PAGE_OFFSET), { env1 with irqOn := saved },
           [.readBanked, .irqDisable, .frameAlloc order, .irqRestore saved])
    | some k =>
      let mag := cache k
      match mag.alloc with
      | (some p, mag') =>
          (.ptr p,
           { env1 with banked := some (Function.update cache k mag'), irqOn := saved },
           [.readBanked, .irqDisable, .magOp k, .irqRestore saved])
      | (none, mag') =>
          if env1.slabInit = false then
            (.fatal, { env1 with banked := some (Function.update cache k mag') },
             [.readBanked, .irqDisable, .magOp k, .fatal])
          else
            match slab_alloc_grow (env1.slabs k) (env1.freshObjs k) with
            | (none, _) =>
                (.fatal, { env1 with banked := some (Function.update cache k mag') },
                 [.readBanked, .irqDisable, .magOp k, .slabLockIrq k, .frameAlloc 0, .fatal])
            | (some (p, rest), grew) =>
                let filled := mag'.fill_from rest
                (.ptr p,
                 { env1 with
                     banked := some (Function.update cache k filled.1),
                     slabs := Function.update env1.slabs k filled.2,
                     irqOn := saved },
                 [.readBanked, .irqDisable, .magOp k, .slabLockIrq k]
                   ++ (if grew then [.frameAlloc 0] else [])
                   ++ [.magOp k, .slabUnlockIrq k false, .irqRestore saved])

/-- Rust `KHeap::dealloc` from `heap.rs`, in the same style as
`KHeap.alloc`: huge layouts hand the recomputed region back to the frame
allocator; otherwise the pointer is pushed into the class magazine, and on
overflow the slab lock is taken, the pointer freed to the slab, and half
the magazine drained. -/
def KHeap.dealloc (min_shift kmax : Nat) (env : HeapEnv) (p size align : Nat) :
    Outcome × HeapEnv × List Event :=
  match env.banked with
  | none => (.fatal, env, [.readBanked, .fatal])
  | some cache =>
    let saved := env.irqOn
    let env1 : HeapEnv := { env with irqOn := false }
    match alloc_order min_shift kmax size align with
    | none =>
      let order := calculate_huge_order size align
      (.unit, { env1 with irqOn := saved },
       [.readBanked, .irqDisable,
        .freeRegion (p - PAGE_OFFSET) (PAGE_SIZE <<< order), .irqRestore saved])
    | some k =>
      let mag := cache k
      match mag.free p with
      | (Except.ok _, mag') =>
          (.unit,
           { env1 with banked := some (Function.update cache k mag'), irqOn := saved },
           [.readBanked, .irqDisable, .magOp k, .irqRestore saved])
      | (Except.error p', mag') =>
          if env1.slabInit = false then
            (.fatal, { env1 with banked := some (Function.update cache k mag') },
             [.readBanked, .irqDisable, .magOp k, .fatal])
          else
            let slab1 := slab_free (env1.slabs k) p'
            let drained := mag'.drain_into slab1
            (.unit,
             { env1 with
                 banked := some (Function.update cache k drained.1),
                 slabs := Function.update env1.slabs k drained.2,
                 irqOn := saved },
             [.readBanked, .irqDisable, .magOp k, .slabLockIrq k, .magOp k,
              .slabUnlockIrq k false, .irqRestore saved])

/-- Predicate selecting magazine accesses in a trace. -/
def Event.isMag : Event → Bool
  | .magOp _ => true
  | _ => false

/-- Inside the bundle window every IRQ-state change keeps interrupts
disabled: the only restores are the slab lock's, which put back the
already-disabled state it saved. -/
def midOK : List Event → Bool
  | [] => true
  | .irqRestore f :: tr => (f == false) && midOK tr
  | .slabUnlockIrq _ f :: tr => (f == false) && midOK tr
  | _ :: tr => midOK tr

/-- Bundle-window discipline for one completed call: the call reads the
banked pointer, immediately disables interrupts, ends by restoring exactly
the saved IRQ state when the bundle is released, and interrupts stay
disabled over the whole window; every magazine access (being in `mid`)
happens strictly inside the window. -/
def windowOK (init : Bool) (tr : List Event) : Prop :=
  ∃ mid : List Event,
    tr = .readBanked :: .irqDisable :: (mid ++ [.irqRestore init]) ∧ midOK mid = true

/-- C3: for every magazine with count `n` (within the backing array),
`PtrCache::drain_into` moves exactly `⌊n/2⌋` pointers into the slab via
`slab.free`, taking the top of the stack first (indices `n-1` down to
`n - ⌊n/2⌋`), leaving the magazine count at `n - ⌊n/2⌋`: the resulting free
list is the stack segment `[n - ⌊n/2⌋, n)` (last-moved entry at the head) in
front of the old list, and the backing array is untouched. -/
theorem C3_drain_into_moves_half (c : PtrCache) (slab : List Nat)
    (h : c.next_free ≤ c.ptrs.length) :
    c.drain_into slab =
      ({ c with next_free := c.next_free - c.next_free / 2 },
       ((c.ptrs.drop (c.next_free - c.next_free / 2)).take (c.next_free / 2))
         ++ slab) := by
  have hsh : c.next_free >>> 1 = c.next_free / 2 := by
    simp [Nat.shiftRight_eq_div_pow]
  rw [PtrCache.drain_into, hsh]
  exact drain_loop_spec _ c slab (Nat.div_le_self _ _) h

theorem C3_drain_into_moves_half_witness :
    PtrCache.drain_into ⟨4, [10, 11, 12, 13]⟩ [9] =
      ({ next_free := 2, ptrs := [10, 11, 12, 13] }, [12, 13, 9]) :=
  (C3_drain_into_moves_half ⟨4, [10, 11, 12, 13]⟩ [9] (by decide)).trans (by decide)

/-- C4: the magazine is a bounded LIFO stack: `alloc` (pop) returns `none`
iff the count is 0 and otherwise decrements the count and returns
`ptrs[n-1]`; `free` (push) returns `Err(p)` iff the count is `M` and
otherwise stores `p` at index `n` and increments the count; and a successful
push of `p` followed immediately by a pop returns `p`. -/
theorem C4_magazine_lifo :
    (∀ c : PtrCache, (c.alloc).1 = none ↔ c.next_free = 0)
    ∧ (∀ c : PtrCache, c.next_free ≠ 0 →
        (c.alloc).1 = some (c.ptrs.getD (c.next_free - 1) 0)
        ∧ (c.alloc).2 = { c with next_free := c.next_free - 1 })
    ∧ (∀ (c : PtrCache) (p : Nat),
        ((c.free p).1 = Except.error p ↔ c.next_free = PTRS_PER_SZ_CLASS))
    ∧ (∀ (c : PtrCache) (p : Nat), c.next_free ≠ PTRS_PER_SZ_CLASS →
        (c.free p).1 = Except.ok ()
        ∧ (c.free p).2 = { c with next_free := c.next_free + 1,
                                  ptrs := c.ptrs.set c.next_free p })
    ∧ (∀ (c : PtrCache) (p : Nat), c.wf → c.is_full = false →
        (((c.free p).2).alloc).1 = some p) := by
  refine ⟨?_, ?_, ?_, ?_, ?_⟩
  · intro c
    by_cases h : c.next_free = 0
    · simp [PtrCache.alloc, PtrCache.is_empty, h]
    · simp [PtrCache.alloc, PtrCache.is_empty, h]
  · intro c h
    constructor
    · simp [PtrCache.alloc, PtrCache.is_empty, h]
    · simp [PtrCache.alloc, PtrCache.is_empty, h]
  · intro c p
    by_cases h : c.next_free = PTRS_PER_SZ_CLASS
    · simp [PtrCache.free, PtrCache.is_full, h]
    · simp [PtrCache.free, PtrCache.is_full, h]
  · intro c p h
    constructor
    · simp [PtrCache.free, PtrCache.is_full, h]
    · simp [PtrCache.free, PtrCache.is_full, h]
  · intro c p hwf hf
    have hne : c.next_free ≠ PTRS_PER_SZ_CLASS := by
      simpa [PtrCache.is_full] using hf
    obtain ⟨h1, h2⟩ := hwf
    have hlt : c.next_free < c.ptrs.length := by omega
    simp [PtrCache.free, PtrCache.is_full, hne, PtrCache.alloc, PtrCache.is_empty]
    simp [List.getElem?_set_self, hlt]

theorem C4_magazine_lifo_witness :
    (((PtrCache.new.free 7).2).alloc).1 = some 7 :=
  C4_magazine_lifo.2.2.2.2 PtrCache.new 7 (by decide) (by decide)

/-- C6: the magazine count invariant `0 ≤ n ≤ M` (with `M = 32`) holds for
`PtrCache::new` and is preserved by `alloc`, `free`, `fill_from` and
`drain_into`; moreover no operation indexes `ptrs` out of bounds: the pop
read at `n-1`, the push write at `n`, and every drain-loop read at
`n-1-i` (for the `⌊n/2⌋` iterations) stay below the array length. -/
theorem C6_magazine_invariant :
    PtrCache.new.wf
    ∧ (∀ c : PtrCache, c.wf → (c.alloc).2.wf)
    ∧ (∀ (c : PtrCache) (p : Nat), c.wf → (c.free p).2.wf)
    ∧ (∀ (c : PtrCache) (slab : List Nat), c.wf → (c.fill_from slab).1.wf)
    ∧ (∀ (c : PtrCache) (slab : List Nat), c.wf → (c.drain_into slab).1.wf)
    ∧ (∀ c : PtrCache, c.wf → c.is_empty = false →
        c.next_free - 1 < c.ptrs.length)
    ∧ (∀ c : PtrCache, c.wf → c.is_full = false →
        c.next_free < c.ptrs.length)
    ∧ (∀ c : PtrCache, c.wf → ∀ i, i < c.next_free >>> 1 →
        c.next_free - 1 - i < c.ptrs.length) := by
  refine ⟨by decide, ?_, ?_, ?_, ?_, ?_, ?_, ?_⟩
  · intro c hwf
    obtain ⟨h1, h2⟩ := hwf
    by_cases h : c.next_free = 0
    · have hs : (c.alloc).2 = c := by simp [PtrCache.alloc, PtrCache.is_empty, h]
      rw [hs]
      exact ⟨h1, h2⟩
    · refine ⟨?_, ?_⟩
      · show (c.alloc).2.next_free ≤ PTRS_PER_SZ_CLASS
        simp [PtrCache.alloc, PtrCache.is_empty, h]
        omega
      · show (c.alloc).2.ptrs.length = PTRS_PER_SZ_CLASS
        simp [PtrCache.alloc, PtrCache.is_empty, h, h2]
  · intro c p hwf
    obtain ⟨h1, h2⟩ := hwf
    by_cases h : c.next_free = PTRS_PER_SZ_CLASS
    · have hs : (c.free p).2 = c := by simp [PtrCache.free, PtrCache.is_full, h]
      rw [hs]
      exact ⟨h1, h2⟩
    · refine ⟨?_, ?_⟩
      · show (c.free p).2.next_free ≤ PTRS_PER_SZ_CLASS
        simp [PtrCache.free, PtrCache.is_full, h]
        omega
      · show (c.free p).2.ptrs.length = PTRS_PER_SZ_CLASS
        simp [PtrCache.free, PtrCache.is_full, h, h2]
  · intro c slab hwf
    exact fill_from_wf slab c hwf
  · intro c slab hwf
    obtain ⟨h1, h2⟩ := hwf
    have hlen : c.next_free ≤ c.ptrs.length := by omega
    have hsh : c.next_free >>> 1 = c.next_free / 2 := by
      simp [Nat.shiftRight_eq_div_pow]
    rw [PtrCache.drain_into, hsh,
        drain_loop_spec _ c slab (Nat.div_le_self _ _) hlen]
    refine ⟨?_, ?_⟩
    · show c.next_free - c.next_free / 2 ≤ PTRS_PER_SZ_CLASS
      omega
    · show c.ptrs.length = PTRS_PER_SZ_CLASS
      exact h2
  · intro c hwf he
    obtain ⟨h1, h2⟩ := hwf
    have : c.next_free ≠ 0 := by simpa [PtrCache.is_empty] using he
    omega
  · intro c hwf hf
    obtain ⟨h1, h2⟩ := hwf
    have : c.next_free ≠ PTRS_PER_SZ_CLASS := by simpa [PtrCache.is_full] using hf
    omega
  · intro c hwf i hi
    obtain ⟨h1, h2⟩ := hwf
    have hsh : c.next_free >>> 1 = c.next_free / 2 := by
      simp [Nat.shiftRight_eq_div_pow]
    rw [hsh] at hi
    omega

theorem C6_magazine_invariant_witness :
    ((PtrCache.new.free 7).2).wf :=
  C6_magazine_invariant.2.2.1 PtrCache.new 7 (by decide)

/-- C10: push-on-full is atomic: calling `PtrCache::free(p)` on a full
magazine returns `Err` carrying exactly `p` and leaves the entire magazine
state (count and all stored pointers) unchanged. -/
theorem C10_push_on_full_atomic (c : PtrCache) (p : Nat)
    (h : c.is_full = true) :
    c.free p = (Except.error p, c) := by
  simp [PtrCache.free, h]

theorem C10_push_on_full_atomic_witness :
    PtrCache.free ⟨PTRS_PER_SZ_CLASS, List.replicate PTRS_PER_SZ_CLASS 5⟩ 7 =
      (Except.error 7, ⟨PTRS_PER_SZ_CLASS, List.replicate PTRS_PER_SZ_CLASS 5⟩) :=
  C10_push_on_full_atomic ⟨PTRS_PER_SZ_CLASS, List.replicate PTRS_PER_SZ_CLASS 5⟩ 7
    (by decide)

/-- Helper: the executable ceiling log₂ really covers its argument. -/
theorem pow_clog2_ge (n : Nat) : n ≤ 2 ^ clog2 n := by
  rw [clog2_eq_clog]
  exact Nat.le_pow_clog (by norm_num) n

/-- Helper: a page-granule ceiling division covers the byte count. -/
theorem le_page_mul_div_ceil (m : Nat) : m ≤ PAGE_SIZE * div_ceil m PAGE_SIZE := by
  have hdm := Nat.div_add_mod (m + 4096 - 1) 4096
  have hmod : (m + 4096 - 1) % 4096 < 4096 := Nat.mod_lt _ (by norm_num)
  unfold div_ceil PAGE_SIZE
  omega

/-- C5: for every layout (align ≥ 1), `KHeap::calculate_huge_order` equals
the ceiling log₂ of the page count `⌈max(size, align) / PAGE_SIZE⌉`, the
resulting order covers the request (`max(size, align) ≤ PAGE_SIZE << order`),
and `dealloc`'s huge path hands back a region of exactly `PAGE_SIZE << order`
bytes computed by the same formula from the same layout. -/
theorem C5_huge_order (ms kmax size align : Nat) (_h : 1 ≤ align) :
    calculate_huge_order size align
        = Nat.clog 2 (div_ceil (max size align) PAGE_SIZE)
    ∧ max size align ≤ PAGE_SIZE <<< calculate_huge_order size align
    ∧ (∀ (env : HeapEnv) (cache : SlabCacheM) (p : Nat),
        env.banked = some cache →
        alloc_order ms kmax size align = none →
        (KHeap.dealloc ms kmax env p size align).2.2 =
          [Event.readBanked, Event.irqDisable,
           Event.freeRegion (p - PAGE_OFFSET)
             (PAGE_SIZE <<< Nat.clog 2 (div_ceil (max size align) PAGE_SIZE)),
           Event.irqRestore env.irqOn]) := by
  have hord : calculate_huge_order size align
      = Nat.clog 2 (div_ceil (max size align) PAGE_SIZE) := by
    show ilog2 (2 ^ clog2 (div_ceil (max size align) PAGE_SIZE)) = _
    rw [ilog2_two_pow, clog2_eq_clog]
  refine ⟨hord, ?_, ?_⟩
  · calc max size align
        ≤ PAGE_SIZE * div_ceil (max size align) PAGE_SIZE :=
          le_page_mul_div_ceil _
      _ ≤ PAGE_SIZE * 2 ^ Nat.clog 2 (div_ceil (max size align) PAGE_SIZE) :=
          Nat.mul_le_mul_left _ (Nat.le_pow_clog (by norm_num) _)
      _ = PAGE_SIZE <<< calculate_huge_order size align := by
          rw [hord, Nat.shiftLeft_eq]
  · intro env cache p hb hcls
    simp only [KHeap.dealloc, hb, hcls]
    rw [hord]

theorem C5_huge_order_witness :
    calculate_huge_order (5 * PAGE_SIZE) PAGE_SIZE
        = Nat.clog 2 (div_ceil (max (5 * PAGE_SIZE) PAGE_SIZE) PAGE_SIZE)
    ∧ max (5 * PAGE_SIZE) PAGE_SIZE
        ≤ PAGE_SIZE <<< calculate_huge_order (5 * PAGE_SIZE) PAGE_SIZE :=
  ⟨(C5_huge_order 3 9 (5 * PAGE_SIZE) PAGE_SIZE (by decide)).1,
   (C5_huge_order 3 9 (5 * PAGE_SIZE) PAGE_SIZE (by decide)).2.1⟩

/-- C7: the classifier returns `some k` exactly for
`k = ceil_log2(max(size, align)) - MIN_SHIFT` (0 treated as 1, saturating
at 0) with `k ≤ K`, `none` otherwise; and whenever `some k` is returned the
class object size `2^(k + MIN_SHIFT)` covers both the size and the
alignment. -/
theorem C7_classifier (ms kmax size align : Nat) :
    (∀ k, alloc_order ms kmax size align = some k ↔
        (k = Nat.clog 2 (max 1 (max size align)) - ms ∧ k ≤ kmax))
    ∧ (∀ k, alloc_order ms kmax size align = some k →
        max size align ≤ 2 ^ (k + ms)) := by
  have hmax : (if max size align = 0 then 1 else max size align)
      = max 1 (max size align) := by
    by_cases h : max size align = 0
    · simp [h]
    · rw [if_neg h]
      omega
  refine ⟨?_, ?_⟩
  · intro k
    simp only [alloc_order, hmax, clog2_eq_clog]
    by_cases hk : Nat.clog 2 (max 1 (max size align)) - ms ≤ kmax
    · simp only [if_pos hk, Option.some.injEq]
      constructor
      · intro h
        omega
      · intro h
        omega
    · simp only [if_neg hk]
      constructor
      · intro h
        cases h
      · intro h
        omega
  · intro k hk
    simp only [alloc_order] at hk
    by_cases hc : clog2 (if max size align = 0 then 1 else max size align) - ms
        ≤ kmax
    · rw [if_pos hc] at hk
      have hkeq : clog2 (if max size align = 0 then 1 else max size align) - ms
          = k := Option.some.inj hk
      have hn : max size align
          ≤ (if max size align = 0 then 1 else max size align) := by
        by_cases h : max size align = 0 <;> simp [h]
      have hle := pow_clog2_ge (if max size align = 0 then 1 else max size align)
      have hmono : 2 ^ clog2 (if max size align = 0 then 1 else max size align)
          ≤ 2 ^ (k + ms) :=
        Nat.pow_le_pow_right (by norm_num) (by omega)
      omega
    · rw [if_neg hc] at hk
      cases hk

theorem C7_classifier_witness :
    alloc_order 3 9 64 8 = some 3 ∧ max 64 8 ≤ 2 ^ (3 + 3) :=
  ⟨by decide, (C7_classifier 3 9 64 8).2 3 (by decide)⟩

/-- Environment exercising the huge path with a failing frame allocator: the
CPU is initialised (banked bundle present), the slab set is initialised, and
every allocation source is exhausted. -/
def envHugeFail : HeapEnv :=
  { banked := some (fun _ => PtrCache.new)
    irqOn := true
    slabInit := true
    slabs := fun _ => []
    framesHuge := fun _ => none
    freshObjs := fun _ => none }

/-- C1 counterexample: at the concrete huge layout (size `5 * PAGE_SIZE`,
align `PAGE_SIZE`) with the frame allocator failing, `alloc` panics (the
`.unwrap()` on the failed frame allocation in `heap.rs`) and does not return
the null pointer, contrary to the claim. -/
theorem C1_huge_oom_counterexample :
    (KHeap.alloc 3 9 envHugeFail (5 * PAGE_SIZE) PAGE_SIZE).1 = Outcome.fatal
    ∧ (KHeap.alloc 3 9 envHugeFail (5 * PAGE_SIZE) PAGE_SIZE).1
        ≠ Outcome.ptr 0 := by
  constructor
  · decide
  · decide

/-- C1 (amended): for every layout on the huge path, if the frame allocator
fails to supply frames of the computed order, `alloc` panics (unwrap of the
failed result) rather than returning the null pointer. -/
theorem C1_huge_oom_panics (ms kmax : Nat) (env : HeapEnv) (cache : SlabCacheM)
    (size align : Nat)
    (hb : env.banked = some cache)
    (hcls : alloc_order ms kmax size align = none)
    (hfa : env.framesHuge (calculate_huge_order size align) = none) :
    (KHeap.alloc ms kmax env size align).1 = Outcome.fatal := by
  simp [KHeap.alloc, hb, hcls, hfa]

theorem C1_huge_oom_panics_witness :
    (KHeap.alloc 3 9 envHugeFail (5 * PAGE_SIZE) PAGE_SIZE).1 = Outcome.fatal :=
  C1_huge_oom_panics 3 9 envHugeFail (fun _ => PtrCache.new) (5 * PAGE_SIZE)
    PAGE_SIZE rfl (by decide) rfl

/-- C2: a `dealloc` whose layout classifies into class `k` and whose
current-CPU magazine for class `k` is full (count `M = 32`) first pushes the
freed pointer onto the class-`k` slab free list via `slab.free`, then drains
half the magazine into the slab: the resulting free list is the 16 drained
pointers in front of `p :: old-list`, and the magazine count ends at exactly
`M/2 = 16`. -/
theorem C2_dealloc_overflow (ms kmax : Nat) (env : HeapEnv) (cache : SlabCacheM)
    (p size align k : Nat)
    (hb : env.banked = some cache)
    (hcls : alloc_order ms kmax size align = some k)
    (hinit : env.slabInit = true)
    (hfull : (cache k).next_free = PTRS_PER_SZ_CLASS)
    (hlen : (cache k).ptrs.length = PTRS_PER_SZ_CLASS) :
    (KHeap.dealloc ms kmax env p size align).1 = Outcome.unit
    ∧ ((KHeap.dealloc ms kmax env p size align).2.1.banked.map
        (fun c2 => (c2 k).next_free)) = some (PTRS_PER_SZ_CLASS / 2)
    ∧ (KHeap.dealloc ms kmax env p size align).2.1.slabs k
        = ((cache k).ptrs.drop (PTRS_PER_SZ_CLASS / 2)).take
            (PTRS_PER_SZ_CLASS / 2)
          ++ (p :: env.slabs k) := by
  have hfree : (cache k).free p = (Except.error p, cache k) := by
    simp [PtrCache.free, PtrCache.is_full, hfull]
  have hsh : (cache k).next_free >>> 1 = (cache k).next_free / 2 := by
    simp [Nat.shiftRight_eq_div_pow]
  have hdr : (cache k).drain_into (p :: env.slabs k) =
      ({ cache k with
           next_free := (cache k).next_free - (cache k).next_free / 2 },
       (((cache k).ptrs.drop
           ((cache k).next_free - (cache k).next_free / 2)).take
          ((cache k).next_free / 2)) ++ (p :: env.slabs k)) := by
    rw [PtrCache.drain_into, hsh]
    exact drain_loop_spec _ _ _ (Nat.div_le_self _ _) (by omega)
  refine ⟨?_, ?_, ?_⟩
  · simp [KHeap.dealloc, hb, hcls, hfree, hinit, slab_free, hdr]
  · simp [KHeap.dealloc, hb, hcls, hfree, hinit, slab_free, hdr,
      Function.update_same, hfull]
    decide
  · simp [KHeap.dealloc, hb, hcls, hfree, hinit, slab_free, hdr,
      Function.update_same, hfull]
    have hhalf : PTRS_PER_SZ_CLASS - PTRS_PER_SZ_CLASS / 2
        = PTRS_PER_SZ_CLASS / 2 := by decide
    rw [hhalf]

/-- Bundle of uniformly full magazines, for exercising the overflow path. -/
def cacheFull : SlabCacheM :=
  fun _ => ⟨PTRS_PER_SZ_CLASS, List.range PTRS_PER_SZ_CLASS⟩

/-- Environment with every magazine full and empty slab free lists. -/
def envFullMag : HeapEnv :=
  { banked := some cacheFull
    irqOn := true
    slabInit := true
    slabs := fun _ => []
    framesHuge := fun _ => none
    freshObjs := fun _ => none }

theorem C2_dealloc_overflow_witness :
    (KHeap.dealloc 3 9 envFullMag 999 64 64).1 = Outcome.unit
    ∧ ((KHeap.dealloc 3 9 envFullMag 999 64 64).2.1.banked.map
        (fun c2 => (c2 3).next_free)) = some (PTRS_PER_SZ_CLASS / 2)
    ∧ (KHeap.dealloc 3 9 envFullMag 999 64 64).2.1.slabs 3
        = ((cacheFull 3).ptrs.drop (PTRS_PER_SZ_CLASS / 2)).take
            (PTRS_PER_SZ_CLASS / 2)
          ++ (999 :: envFullMag.slabs 3) :=
  C2_dealloc_overflow 3 9 envFullMag cacheFull 999 64 64 3 rfl (by decide)
    rfl (by decide) (by decide)

/-- C9: on a CPU whose banked per-CPU slot holds the null pointer, both
`alloc` and `dealloc` panic before touching any magazine or slab: the call
returns a fatal outcome, leaves the state untouched, and its trace is just
the banked-pointer read followed by the panic (in particular it contains no
magazine access). -/
theorem C9_null_banked_panics (ms kmax : Nat) (env : HeapEnv)
    (p size align : Nat) (h : env.banked = none) :
    KHeap.alloc ms kmax env size align
        = (Outcome.fatal, env, [Event.readBanked, Event.fatal])
    ∧ KHeap.dealloc ms kmax env p size align
        = (Outcome.fatal, env, [Event.readBanked, Event.fatal])
    ∧ (∀ e ∈ [Event.readBanked, Event.fatal], e.isMag = false) := by
  refine ⟨?_, ?_, by decide⟩
  · simp [KHeap.alloc, h]
  · simp [KHeap.dealloc, h]

/-- Environment of a CPU that never ran `init_for_this_cpu`. -/
def envNull : HeapEnv :=
  { banked := none
    irqOn := true
    slabInit := true
    slabs := fun _ => []
    framesHuge := fun _ => none
    freshObjs := fun _ => none }

theorem C9_null_banked_panics_witness :
    KHeap.alloc 3 9 envNull 8 8
        = (Outcome.fatal, envNull, [Event.readBanked, Event.fatal])
    ∧ KHeap.dealloc 3 9 envNull 7 8 8
        = (Outcome.fatal, envNull, [Event.readBanked, Event.fatal])
    ∧ (∀ e ∈ [Event.readBanked, Event.fatal], e.isMag = false) :=
  C9_null_banked_panics 3 9 envNull 7 8 8 rfl

/-- C8: every `alloc` or `dealloc` call that acquires the current CPU's
magazine bundle (non-null banked pointer) and completes without panicking
follows the bundle window discipline: the banked-pointer read is followed
immediately by the interrupt disable, the saved IRQ state is restored
exactly when the bundle is released (the final event of the call), the
window keeps interrupts disabled throughout (the inner slab-lock release
only restores the already-disabled state), and every magazine read or
mutation happens strictly inside that window. -/
theorem C8_bundle_irq_window (ms kmax : Nat) (env : HeapEnv)
    (cache : SlabCacheM) (p size align : Nat)
    (hb : env.banked = some cache) :
    ((KHeap.alloc ms kmax env size align).1 ≠ Outcome.fatal →
      windowOK env.irqOn (KHeap.alloc ms kmax env size align).2.2)
    ∧ ((KHeap.dealloc ms kmax env p size align).1 ≠ Outcome.fatal →
      windowOK env.irqOn (KHeap.dealloc ms kmax env p size align).2.2) := by
  constructor
  · intro hnf
    rcases hcls : alloc_order ms kmax size align with _ | k
    · rcases hfa : env.framesHuge (calculate_huge_order size align) with _ | pa
      · exfalso
        apply hnf
        simp [KHeap.alloc, hb, hcls, hfa]
      · refine ⟨[Event.frameAlloc (calculate_huge_order size align)], ?_,
          by simp [midOK]⟩
        simp [KHeap.alloc, hb, hcls, hfa]
    · rcases hpop : (cache k).alloc with ⟨op, mag1⟩
      rcases op with _ | q
      · rcases hsi : env.slabInit with _ | _
        · exfalso
          apply hnf
          simp [KHeap.alloc, hb, hcls, hpop, hsi]
        · rcases hga : slab_alloc_grow (env.slabs k) (env.freshObjs k)
            with ⟨og, grew⟩
          rcases og with _ | pr
          · exfalso
            apply hnf
            simp [KHeap.alloc, hb, hcls, hpop, hsi, hga]
          · rcases pr with ⟨q, rest⟩
            rcases grew with _ | _
            · refine ⟨[Event.magOp k, Event.slabLockIrq k, Event.magOp k,
                  Event.slabUnlockIrq k false], ?_, by simp [midOK]⟩
              simp [KHeap.alloc, hb, hcls, hpop, hsi, hga]
            · refine ⟨[Event.magOp k, Event.slabLockIrq k, Event.frameAlloc 0,
                  Event.magOp k, Event.slabUnlockIrq k false], ?_,
                by simp [midOK]⟩
              simp [KHeap.alloc, hb, hcls, hpop, hsi, hga]
      · refine ⟨[Event.magOp k], ?_, by simp [midOK]⟩
        simp [KHeap.alloc, hb, hcls, hpop]
  · intro hnf
    rcases hcls : alloc_order ms kmax size align with _ | k
    · refine ⟨[Event.freeRegion (p - PAGE_OFFSET)
          (PAGE_SIZE <<< calculate_huge_order size align)], ?_,
        by simp [midOK]⟩
      simp [KHeap.dealloc, hb, hcls]
    · rcases hpush : (cache k).free p with ⟨res, mag1⟩
      rcases res with e | u
      · rcases hsi : env.slabInit with _ | _
        · exfalso
          apply hnf
          simp [KHeap.dealloc, hb, hcls, hpush, hsi]
        · refine ⟨[Event.magOp k, Event.slabLockIrq k, Event.magOp k,
              Event.slabUnlockIrq k false], ?_, by simp [midOK]⟩
          simp [KHeap.dealloc, hb, hcls, hpush, hsi]
      · refine ⟨[Event.magOp k], ?_, by simp [midOK]⟩
        simp [KHeap.dealloc, hb, hcls, hpush]

theorem C8_bundle_irq_window_witness :
    windowOK envFullMag.irqOn (KHeap.alloc 3 9 envFullMag 64 64).2.2
    ∧ windowOK envFullMag.irqOn (KHeap.dealloc 3 9 envFullMag 999 64 64).2.2 :=
  ⟨(C8_bundle_irq_window 3 9 envFullMag cacheFull 999 64 64 rfl).1 (by decide),
   (C8_bundle_irq_window 3 9 envFullMag cacheFull 999 64 64 rfl).2 (by decide)⟩
